import Mathlib

/-!
Verification of the pap86 8086 MOV disassembler (src/pap86/src/main.rs).

The decoder core is embedded shallowly: machine bytes are natural numbers
(each byte of a real input is < 256), the byte cursor is a list consumed
from the front, and every `panic!` of the Rust source becomes a
`DecodeError` value carried by `Except`.  All definitions follow the Rust
source; rendering mirrors the `Display` implementations character for
character.
-/

/-- Registers, encoded as in the Rust `Register` enum: the 4-bit key is
`(W <<< 3) ||| REG`. -/
inductive Register where
  | AL | CL | DL | BL | AH | CH | DH | BH
  | AX | CX | DX | BX | SP | BP | SI | DI
deriving DecidableEq, Repr

/-- `Register::from_repr`: lookup of the 4-bit `(W, REG)` key. -/
def Register.from_repr : Nat → Option Register
  | 0 => some .AL
  | 1 => some .CL
  | 2 => some .DL
  | 3 => some .BL
  | 4 => some .AH
  | 5 => some .CH
  | 6 => some .DH
  | 7 => some .BH
  | 8 => some .AX
  | 9 => some .CX
  | 10 => some .DX
  | 11 => some .BX
  | 12 => some .SP
  | 13 => some .BP
  | 14 => some .SI
  | 15 => some .DI
  | _ => none

/-- Lowercase register mnemonic, as `as_ref().to_lowercase()` produces. -/
def Register.toStr : Register → String
  | .AL => "al"
  | .CL => "cl"
  | .DL => "dl"
  | .BL => "bl"
  | .AH => "ah"
  | .CH => "ch"
  | .DH => "dh"
  | .BH => "bh"
  | .AX => "ax"
  | .CX => "cx"
  | .DX => "dx"
  | .BX => "bx"
  | .SP => "sp"
  | .BP => "bp"
  | .SI => "si"
  | .DI => "di"

/-- The 8 effective-address formulas selected by the 3-bit r/m field. -/
inductive EffectiveAddressFormula where
  | BxPlusSi | BxPlusDi | BpPlusSi | BpPlusDi | Si | Di | Bp | Bx
deriving DecidableEq, Repr

/-- `EffectiveAddressFormula::from_repr`: lookup of the 3-bit r/m value. -/
def EffectiveAddressFormula.from_repr : Nat → Option EffectiveAddressFormula
  | 0 => some .BxPlusSi
  | 1 => some .BxPlusDi
  | 2 => some .BpPlusSi
  | 3 => some .BpPlusDi
  | 4 => some .Si
  | 5 => some .Di
  | 6 => some .Bp
  | 7 => some .Bx
  | _ => none

/-- Textual form of a formula, as the Rust `Display` impl writes it. -/
def EffectiveAddressFormula.toStr : EffectiveAddressFormula → String
  | .BxPlusSi => "bx + si"
  | .BxPlusDi => "bx + di"
  | .BpPlusSi => "bp + si"
  | .BpPlusDi => "bp + di"
  | .Si => "si"
  | .Di => "di"
  | .Bp => "bp"
  | .Bx => "bx"

/-- The three MOV encoding families recognized by `Opcode::parse`. -/
inductive Opcode where
  | MovRegToRegOrRegToMem
  | MovImmediateToMem
  | MovImmediateToReg
deriving DecidableEq, Repr

/-- `Opcode::parse`: ordered (mask, pattern) classification of the first
instruction byte; `none` models the `panic!("Invalid opcode")` branch. -/
def Opcode.parse (b : Nat) : Option Opcode :=
  if b &&& 0b11111100 = 0b10001000 then some .MovRegToRegOrRegToMem
  else if b &&& 0b11111110 = 0b11000110 then some .MovImmediateToMem
  else if b &&& 0b11110000 = 0b10110000 then some .MovImmediateToReg
  else none

/-- The Rust `Instruction` enum, one constructor per variant.  Displacements
are `Option Nat` (the Rust `Option<u16>`), data and addresses plain `Nat`. -/
inductive Instruction where
  | MovRegToReg (dst src : Register)
  | MovMemToReg (dst : Register) (formula : EffectiveAddressFormula)
      (displacement : Option Nat)
  | MovRegToMem (formula : EffectiveAddressFormula)
      (displacement : Option Nat) (src : Register)
  | MovMemDirectToReg (dst : Register) (address : Nat)
  | MovRegToMemDirect (address : Nat) (src : Register)
  | MovImmediateToMem (formula : EffectiveAddressFormula)
      (displacement : Option Nat) (data : Nat)
  | MovImmediateMemDirect (address : Nat) (data : Nat)
  | MovImmediateToReg (dst : Register) (data : Nat)
deriving DecidableEq, Repr

/-- The fatal failures of the Rust decoder: `next_byte` past the end of the
buffer, and the four `panic!` sites of `decode` / `Opcode::parse`. -/
inductive DecodeError where
  | endOfInput
  | invalidOpcode (b : Nat)
  | invalidReg (v : Nat)
  | invalidFormula (v : Nat)
  | invalidMode
deriving DecidableEq, Repr

/-- `get_data` closure of the immediate→mem family: one byte if W=0, two
little-endian bytes if W=1. -/
def getData (w : Nat) (bs : List Nat) : Except DecodeError (Nat × List Nat) :=
  if w > 0 then
    match bs with
    | lo :: hi :: rest => .ok ((hi <<< 8) ||| lo, rest)
    | _ => .error .endOfInput
  else
    match bs with
    | b :: rest => .ok (b, rest)
    | [] => .error .endOfInput

/-- Reg↔reg/mem family (`Opcode::MovRegToRegOrRegToMem` arm of `decode`),
entered after the first two instruction bytes have been read.  The register
lookup of the `reg` field happens before the mode dispatch, exactly as in
the Rust source. -/
def decodeRegToRegOrMem (b1 b2 : Nat) (bs : List Nat) :
    Except DecodeError (Instruction × List Nat) :=
  match Register.from_repr (((b1 &&& 1) <<< 3) ||| ((b2 >>> 3) &&& 0b111)) with
  | none => .error (.invalidReg (((b1 &&& 1) <<< 3) ||| ((b2 >>> 3) &&& 0b111)))
  | some reg_1 =>
    match b2 >>> 6 with
    | 0 =>
      if b2 &&& 0b111 = 0b110 then
        match bs with
        | lo :: hi :: rest =>
          if (b1 >>> 1) &&& 1 > 0 then
            .ok (.MovMemDirectToReg reg_1 ((hi <<< 8) ||| lo), rest)
          else
            .ok (.MovRegToMemDirect ((hi <<< 8) ||| lo) reg_1, rest)
        | _ => .error .endOfInput
      else
        match EffectiveAddressFormula.from_repr (b2 &&& 0b111) with
        | none => .error (.invalidFormula (b2 &&& 0b111))
        | some formula =>
          if (b1 >>> 1) &&& 1 > 0 then .ok (.MovMemToReg reg_1 formula none, bs)
          else .ok (.MovRegToMem formula none reg_1, bs)
    | 1 =>
      match EffectiveAddressFormula.from_repr (b2 &&& 0b111) with
      | none => .error (.invalidFormula (b2 &&& 0b111))
      | some formula =>
        match bs with
        | disp :: rest =>
          if (b1 >>> 1) &&& 1 > 0 then
            .ok (.MovMemToReg reg_1 formula (some disp), rest)
          else .ok (.MovRegToMem formula (some disp) reg_1, rest)
        | [] => .error .endOfInput
    | 2 =>
      match EffectiveAddressFormula.from_repr (b2 &&& 0b111) with
      | none => .error (.invalidFormula (b2 &&& 0b111))
      | some formula =>
        match bs with
        | lo :: hi :: rest =>
          if (b1 >>> 1) &&& 1 > 0 then
            .ok (.MovMemToReg reg_1 formula (some ((hi <<< 8) ||| lo)), rest)
          else
            .ok (.MovRegToMem formula (some ((hi <<< 8) ||| lo)) reg_1, rest)
        | _ => .error .endOfInput
    | 3 =>
      match Register.from_repr (((b1 &&& 1) <<< 3) ||| (b2 &&& 0b111)) with
      | none => .error (.invalidReg (((b1 &&& 1) <<< 3) ||| (b2 &&& 0b111)))
      | some reg_2 =>
        .ok (.MovRegToReg (if (b1 >>> 1) &&& 1 = 1 then reg_1 else reg_2)
              (if (b1 >>> 1) &&& 1 = 1 then reg_2 else reg_1), bs)
    | _ => .error .invalidMode

/-- Immediate→mem family (`Opcode::MovImmediateToMem` arm of `decode`),
entered after the first two instruction bytes have been read. -/
def decodeImmToMem (b1 b2 : Nat) (bs : List Nat) :
    Except DecodeError (Instruction × List Nat) :=
  match b2 >>> 6 with
  | 0 =>
    if b2 &&& 0b111 = 0b110 then
      match bs with
      | lo :: hi :: rest =>
        match getData (b1 &&& 1) rest with
        | .error e => .error e
        | .ok (data, rest2) =>
          .ok (.MovImmediateMemDirect ((hi <<< 8) ||| lo) data, rest2)
      | _ => .error .endOfInput
    else
      match EffectiveAddressFormula.from_repr (b2 &&& 0b111) with
      | none => .error (.invalidFormula (b2 &&& 0b111))
      | some formula =>
        match getData (b1 &&& 1) bs with
        | .error e => .error e
        | .ok (data, rest) =>
          .ok (.MovImmediateToMem formula none data, rest)
  | 1 =>
    match EffectiveAddressFormula.from_repr (b2 &&& 0b111) with
    | none => .error (.invalidFormula (b2 &&& 0b111))
    | some formula =>
      match bs with
      | disp :: rest =>
        match getData (b1 &&& 1) rest with
        | .error e => .error e
        | .ok (data, rest2) =>
          .ok (.MovImmediateToMem formula (some disp) data, rest2)
      | [] => .error .endOfInput
  | 2 =>
    match EffectiveAddressFormula.from_repr (b2 &&& 0b111) with
    | none => .error (.invalidFormula (b2 &&& 0b111))
    | some formula =>
      match bs with
      | lo :: hi :: rest =>
        match getData (b1 &&& 1) rest with
        | .error e => .error e
        | .ok (data, rest2) =>
          .ok (.MovImmediateToMem formula (some ((hi <<< 8) ||| lo)) data,
                rest2)
      | _ => .error .endOfInput
  | 3 =>
    match Register.from_repr (((b1 &&& 1) <<< 3) ||| (b2 &&& 0b111)) with
    | none => .error (.invalidReg (((b1 &&& 1) <<< 3) ||| (b2 &&& 0b111)))
    | some reg =>
      match getData (b1 &&& 1) bs with
      | .error e => .error e
      | .ok (data, rest) => .ok (.MovImmediateToReg reg data, rest)
  | _ => .error .invalidMode

/-- Immediate→reg family (`Opcode::MovImmediateToReg` arm of `decode`):
`W:REG` live in the low 4 bits of the first byte. -/
def decodeImmToReg (b1 : Nat) (bs : List Nat) :
    Except DecodeError (Instruction × List Nat) :=
  match Register.from_repr (b1 &&& 0b1111) with
  | none => .error (.invalidReg (b1 &&& 0b1111))
  | some dst =>
    if b1 &&& 0b1111 &&& 0b1000 > 0 then
      match bs with
      | lo :: hi :: rest =>
        .ok (.MovImmediateToReg dst ((hi <<< 8) ||| lo), rest)
      | _ => .error .endOfInput
    else
      match bs with
      | b :: rest => .ok (.MovImmediateToReg dst b, rest)
      | [] => .error .endOfInput

/-- One iteration of the Rust `decode` loop: classify the first byte and
decode a single instruction, returning it with the unconsumed bytes. -/
def decodeOne (bs0 : List Nat) : Except DecodeError (Instruction × List Nat) :=
  match bs0 with
  | [] => .error .endOfInput
  | b1 :: bs =>
    match Opcode.parse b1 with
    | none => .error (.invalidOpcode b1)
    | some .MovRegToRegOrRegToMem =>
      match bs with
      | [] => .error .endOfInput
      | b2 :: bs => decodeRegToRegOrMem b1 b2 bs
    | some .MovImmediateToMem =>
      match bs with
      | [] => .error .endOfInput
      | b2 :: bs => decodeImmToMem b1 b2 bs
    | some .MovImmediateToReg => decodeImmToReg b1 bs

theorem getData_length {w : Nat} {bs rest : List Nat} {v : Nat}
    (h : getData w bs = .ok (v, rest)) :
    rest.length + 1 ≤ bs.length ∧ bs.length ≤ rest.length + 2 := by
  unfold getData at h
  repeat' split at h
  all_goals first
    | (simp_all; omega)
    | simp_all

theorem decodeRegToRegOrMem_length {b1 b2 : Nat} {bs rest : List Nat}
    {i : Instruction} (h : decodeRegToRegOrMem b1 b2 bs = .ok (i, rest)) :
    rest.length ≤ bs.length ∧ bs.length ≤ rest.length + 2 := by
  unfold decodeRegToRegOrMem at h
  repeat' split at h
  all_goals first
    | (simp_all; omega)
    | simp_all

theorem decodeImmToMem_length {b1 b2 : Nat} {bs rest : List Nat}
    {i : Instruction} (h : decodeImmToMem b1 b2 bs = .ok (i, rest)) :
    rest.length + 1 ≤ bs.length ∧ bs.length ≤ rest.length + 4 := by
  unfold decodeImmToMem at h
  repeat' split at h
  all_goals try (have hlen := getData_length (show getData _ _ = _ by assumption))
  all_goals first
    | (simp_all; omega)
    | simp_all

theorem decodeImmToReg_length {b1 : Nat} {bs rest : List Nat}
    {i : Instruction} (h : decodeImmToReg b1 bs = .ok (i, rest)) :
    rest.length + 1 ≤ bs.length ∧ bs.length ≤ rest.length + 2 := by
  unfold decodeImmToReg at h
  repeat' split at h
  all_goals first
    | (simp_all; omega)
    | simp_all

theorem decodeOne_length {bs rest : List Nat} {i : Instruction}
    (h : decodeOne bs = .ok (i, rest)) :
    rest.length + 2 ≤ bs.length ∧ bs.length ≤ rest.length + 6 := by
  match bs with
  | [] => simp [decodeOne] at h
  | b1 :: bs =>
    unfold decodeOne at h
    repeat' split at h
    all_goals first
      | (have hl := decodeRegToRegOrMem_length h; simp_all; omega)
      | (have hl := decodeImmToMem_length h; simp_all; omega)
      | (have hl := decodeImmToReg_length h; simp_all; omega)
      | simp_all

/-- The Rust `decode` driver: repeatedly classify-and-decode until the
cursor is exhausted; any failure aborts the whole run with no partial
output, as the Rust panics do. -/
def decode (bs : List Nat) : Except DecodeError (List Instruction) :=
  if bs.isEmpty then .ok []
  else
    match h : decodeOne bs with
    | .error e => .error e
    | .ok (i, rest) =>
      match decode rest with
      | .error e => .error e
      | .ok l => .ok (i :: l)
termination_by bs.length
decreasing_by
  have hl := decodeOne_length h
  omega

/-- Displacement suffix inside `[...]`, as the Rust `Display` impls build
it: `" + N"` when a displacement is present and `> 0`, nothing otherwise. -/
def dispSuffix : Option Nat → String
  | some d => if d > 0 then " + " ++ toString d else ""
  | none => ""

/-- Immediate rendering for memory destinations: `word N` when the value
exceeds 255, `byte N` otherwise (the Rust `if *data > 255` test). -/
def dataWithSize (data : Nat) : String :=
  if data > 255 then "word " ++ toString data else "byte " ++ toString data

/-- `Display for Instruction`, line for line. -/
def Instruction.toStr : Instruction → String
  | .MovRegToReg dst src =>
      "mov " ++ dst.toStr ++ ", " ++ src.toStr
  | .MovMemToReg dst formula disp =>
      "mov " ++ dst.toStr ++ ", [" ++ formula.toStr ++ dispSuffix disp ++ "]"
  | .MovRegToMem formula disp src =>
      "mov [" ++ formula.toStr ++ dispSuffix disp ++ "], " ++ src.toStr
  | .MovMemDirectToReg dst addr =>
      "mov " ++ dst.toStr ++ ", [" ++ toString addr ++ "]"
  | .MovRegToMemDirect addr src =>
      "mov [" ++ toString addr ++ "], " ++ src.toStr
  | .MovImmediateToMem formula disp data =>
      "mov [" ++ formula.toStr ++ dispSuffix disp ++ "], " ++ dataWithSize data
  | .MovImmediateMemDirect addr data =>
      "mov [" ++ toString addr ++ "], " ++ dataWithSize data
  | .MovImmediateToReg dst data =>
      "mov " ++ dst.toStr ++ ", " ++ toString data

/-- The Rust `output` function: the `bits 16` header line followed by one
rendered instruction per line. -/
def output (instructions : List Instruction) : String :=
  "bits 16\n" ++ String.join (instructions.map (fun i => i.toStr ++ "\n"))

/-- Every 4-bit key formed from a width bit and a 3-bit register code hits
a defined Register Table entry. -/
theorem reg_from_repr_shift {x y : Nat} (hx : x ≤ 1) (hy : y ≤ 7) :
    ∃ r, Register.from_repr ((x <<< 3) ||| y) = some r := by
  interval_cases x <;> interval_cases y <;> exact ⟨_, rfl⟩

/-- The Register Table is defined on every value below 16. -/
theorem reg_from_repr_le15 {n : Nat} (hn : n ≤ 15) :
    ∃ r, Register.from_repr n = some r := by
  interval_cases n <;> exact ⟨_, rfl⟩

/-- The Formula Table is defined on every 3-bit value. -/
theorem formula_from_repr_le7 {y : Nat} (hy : y ≤ 7) :
    ∃ f, EffectiveAddressFormula.from_repr y = some f := by
  interval_cases y <;> exact ⟨_, rfl⟩

theorem parse_regFamily {b : Nat} (h : b &&& 0b11111100 = 0b10001000) :
    Opcode.parse b = some .MovRegToRegOrRegToMem := by
  simp [Opcode.parse, h]

theorem parse_immToMemFamily {b : Nat} (h : b &&& 0b11111110 = 0b11000110) :
    Opcode.parse b = some .MovImmediateToMem := by
  have h2 : b &&& 0b11111100 = 0b11000100 := by
    have h3 : b &&& 0b11111100 = (b &&& 0b11111110) &&& 0b11111100 := by
      rw [Nat.and_assoc]
      rw [show ((0b11111110 : Nat) &&& 0b11111100) = 0b11111100 from by decide]
    rw [h3, h]
    decide
  simp [Opcode.parse, h, h2]

theorem getData_error {w : Nat} {bs : List Nat} {e : DecodeError}
    (h : getData w bs = .error e) : e = .endOfInput := by
  unfold getData at h
  repeat' split at h
  all_goals simp_all

theorem decodeRegToRegOrMem_error {b1 b2 : Nat} {bs : List Nat}
    {e : DecodeError} (h : decodeRegToRegOrMem b1 b2 bs = .error e) :
    e = .endOfInput ∨ e = .invalidMode := by
  unfold decodeRegToRegOrMem at h
  repeat' split at h
  all_goals first
    | (obtain ⟨r, hr⟩ := reg_from_repr_shift (x := b1 &&& 1)
        (y := (b2 >>> 3) &&& 0b111) Nat.and_le_right Nat.and_le_right
       simp_all
       done)
    | (obtain ⟨r, hr⟩ := reg_from_repr_shift (x := b1 &&& 1)
        (y := b2 &&& 0b111) Nat.and_le_right Nat.and_le_right
       simp_all
       done)
    | (obtain ⟨f, hf⟩ := formula_from_repr_le7 (y := b2 &&& 0b111)
        Nat.and_le_right
       simp_all
       done)
    | simp_all

theorem decodeImmToMem_error {b1 b2 : Nat} {bs : List Nat}
    {e : DecodeError} (h : decodeImmToMem b1 b2 bs = .error e) :
    e = .endOfInput ∨ e = .invalidMode := by
  unfold decodeImmToMem at h
  repeat' split at h
  all_goals try (have hge := getData_error (show getData _ _ = _ by assumption))
  all_goals first
    | (obtain ⟨r, hr⟩ := reg_from_repr_shift (x := b1 &&& 1)
        (y := b2 &&& 0b111) Nat.and_le_right Nat.and_le_right
       simp_all
       done)
    | (obtain ⟨f, hf⟩ := formula_from_repr_le7 (y := b2 &&& 0b111)
        Nat.and_le_right
       simp_all
       done)
    | simp_all

theorem decodeImmToReg_error {b1 : Nat} {bs : List Nat}
    {e : DecodeError} (h : decodeImmToReg b1 bs = .error e) :
    e = .endOfInput := by
  unfold decodeImmToReg at h
  repeat' split at h
  all_goals first
    | (obtain ⟨r, hr⟩ := reg_from_repr_le15 (n := b1 &&& 0b1111)
        Nat.and_le_right
       simp_all
       done)
    | simp_all

theorem decodeOne_error {bs : List Nat} {e : DecodeError}
    (h : decodeOne bs = .error e) :
    e = .endOfInput ∨ (∃ b, e = .invalidOpcode b) ∨ e = .invalidMode := by
  match bs with
  | [] => simp [decodeOne] at h; simp [h]
  | b1 :: bs =>
    unfold decodeOne at h
    repeat' split at h
    all_goals try (rcases decodeRegToRegOrMem_error h with h1 | h1 <;> simp [h1])
    all_goals try (rcases decodeImmToMem_error h with h1 | h1 <;> simp [h1])
    all_goals try (have h1 := decodeImmToReg_error h; simp [h1])
    all_goals try simp_all
    all_goals exact Or.inr (Or.inl ⟨_, h.symm⟩)

theorem decode_error_shape : ∀ (n : Nat) (bs : List Nat), bs.length ≤ n →
    ∀ e, decode bs = .error e →
    e = .endOfInput ∨ (∃ b, e = .invalidOpcode b) ∨ e = .invalidMode := by
  intro n
  induction n with
  | zero =>
    intro bs hlen e hdec
    have hnil : bs = [] := List.eq_nil_of_length_eq_zero (Nat.le_zero.mp hlen)
    subst hnil
    rw [decode.eq_def] at hdec
    simp at hdec
  | succ n ih =>
    intro bs hlen e hdec
    rw [decode.eq_def] at hdec
    split at hdec
    · simp at hdec
    · split at hdec
      · -- decodeOne reported an error
        have h1 := decodeOne_error (show decodeOne bs = .error _ from by assumption)
        simp only [Except.error.injEq] at hdec
        exact hdec ▸ h1
      · -- decodeOne succeeded; the error came from the recursive call
        rename_i hne i rest heqone
        split at hdec
        · rename_i e2 heq2
          have hlone := decodeOne_length heqone
          have h2 := ih rest (by omega) e2 heq2
          simp only [Except.error.injEq] at hdec
          exact hdec ▸ h2
        · simp at hdec

/-- C1: evaluation of the code at the failing input 88 41 FF (mode 01,
r/m = 001, displacement byte 0xFF).  The decoder stores the raw byte 255
with no sign-extension, and the renderer prints `mov [bx + di + 255], al`,
not `mov [bx + di - 1], al` as the claim requires. -/
theorem c1_mode01_displacement_not_sign_extended :
    decodeOne [0x88, 0x41, 0xFF]
      = .ok (.MovRegToMem .BxPlusDi (some 255) .AL, [])
    ∧ (Instruction.MovRegToMem .BxPlusDi (some 255) .AL).toStr
      = "mov [bx + di + 255], al"
    ∧ (Instruction.MovRegToMem .BxPlusDi (some 255) .AL).toStr
      ≠ "mov [bx + di - 1], al" := by
  refine ⟨rfl, rfl, by decide⟩

/-- C2: the classifier recognizes no accumulator family.  Every byte of
the form 1010_000x or 1010_001x matches none of the three (mask, pattern)
rules of Opcode.parse, and decoding an input starting with 0xA1 aborts
with the invalid-opcode diagnostic instead of producing a mem→accumulator
instruction. -/
theorem c2_no_accumulator_family :
    Opcode.parse 0b10100000 = none
    ∧ Opcode.parse 0b10100001 = none
    ∧ Opcode.parse 0b10100010 = none
    ∧ Opcode.parse 0b10100011 = none
    ∧ decode [0xA1, 0xFB, 0x09] = .error (.invalidOpcode 0xA1) := by
  refine ⟨rfl, rfl, rfl, rfl, ?_⟩
  rw [decode.eq_def]
  rfl

/-- C6: whenever the displacement of a memory operand with a formula is
absent or exactly 0, the renderer emits the bare bracketed formula with no
suffix, for all three memory-with-formula instruction shapes. -/
theorem c6_zero_displacement_suppressed :
    ∀ (dst src : Register) (f : EffectiveAddressFormula) (data : Nat),
      dispSuffix none = ""
      ∧ dispSuffix (some 0) = ""
      ∧ (Instruction.MovMemToReg dst f (some 0)).toStr
          = "mov " ++ dst.toStr ++ ", [" ++ f.toStr ++ "]"
      ∧ (Instruction.MovMemToReg dst f none).toStr
          = "mov " ++ dst.toStr ++ ", [" ++ f.toStr ++ "]"
      ∧ (Instruction.MovRegToMem f (some 0) src).toStr
          = "mov [" ++ f.toStr ++ "], " ++ src.toStr
      ∧ (Instruction.MovRegToMem f none src).toStr
          = "mov [" ++ f.toStr ++ "], " ++ src.toStr
      ∧ (Instruction.MovImmediateToMem f (some 0) data).toStr
          = "mov [" ++ f.toStr ++ "], " ++ dataWithSize data
      ∧ (Instruction.MovImmediateToMem f none data).toStr
          = "mov [" ++ f.toStr ++ "], " ++ dataWithSize data := by
  intro dst src f data
  simp [Instruction.toStr, dispSuffix]

/-- C7: decode failures are fatal and produce no instructions.  A first
byte matching no classifier rule makes the whole decode return the
invalid-opcode error carrying that byte, never a partial instruction
list, and a truncated multi-byte read (0xB8 expects two immediate bytes)
makes it return the end-of-input error. -/
theorem c7_failures_fatal (b : Nat) (bs : List Nat)
    (h : Opcode.parse b = none) :
    decode (b :: bs) = .error (.invalidOpcode b)
    ∧ (∀ l, decode (b :: bs) ≠ .ok l)
    ∧ decode [0xB8] = .error .endOfInput := by
  have hone : decodeOne (b :: bs) = .error (.invalidOpcode b) := by
    simp [decodeOne, h]
  have hdec : decode (b :: bs) = .error (.invalidOpcode b) := by
    rw [decode.eq_def]
    rw [hone]
    rfl
  refine ⟨hdec, ?_, ?_⟩
  · intro l hl
    rw [hdec] at hl
    simp at hl
  · rw [decode.eq_def]
    rfl

/-- C7 witness: the accumulator byte 0xA0 matches no rule, so decoding
aborts with the invalid-opcode error and never returns an instruction
list. -/
theorem c7_failures_fatal_witness :
    decode [0xA0, 0xFB, 0x09] = .error (.invalidOpcode 0xA0)
    ∧ (∀ l, decode [0xA0, 0xFB, 0x09] ≠ .ok l)
    ∧ decode [0xB8] = .error .endOfInput :=
  c7_failures_fatal 0xA0 [0xFB, 0x09] rfl

/-- C8: the Register Table is defined on every 4-bit (W, REG) key and the
Formula Table on every 3-bit r/m value, and consequently no input byte
sequence can make the decoder fail with the invalid-register or
invalid-formula diagnostic. -/
theorem c8_tables_exhaustive :
    (∀ (w : Fin 2) (r : Fin 8),
      (Register.from_repr ((w.val <<< 3) ||| r.val)).isSome)
    ∧ (∀ v : Fin 8, (EffectiveAddressFormula.from_repr v.val).isSome)
    ∧ (∀ (bs : List Nat) (e : DecodeError) (v : Nat),
        decode bs = .error e →
        e ≠ .invalidReg v ∧ e ≠ .invalidFormula v) := by
  refine ⟨by decide, by decide, ?_⟩
  intro bs e v hdec
  rcases decode_error_shape bs.length bs le_rfl e hdec with h | ⟨b, h⟩ | h <;>
    subst h <;> exact ⟨by simp, by simp⟩

/-- C8 witness: the tables are populated at the extreme key (W=1, REG=7),
and the concrete failing decode of byte 0xA2 reports an invalid opcode,
not an invalid register or formula. -/
theorem c8_tables_exhaustive_witness :
    (Register.from_repr (((1 : Fin 2)).val <<< 3 ||| ((7 : Fin 8)).val)).isSome
    ∧ (DecodeError.invalidOpcode 0xA2 ≠ .invalidReg 0
       ∧ DecodeError.invalidOpcode 0xA2 ≠ .invalidFormula 0) := by
  refine ⟨c8_tables_exhaustive.1 1 7,
    c8_tables_exhaustive.2.2 [0xA2] (.invalidOpcode 0xA2) 0 ?_⟩
  rw [decode.eq_def]
  rfl

/-- C9: each successful loop iteration consumes between 2 and 6 bytes and
strictly advances the cursor, and the (total, hence terminating) driver
prepends the decoded instruction to the decode of the remaining bytes,
producing instructions in input order. -/
theorem c9_driver_bounded_progress (bs : List Nat) (i : Instruction)
    (rest : List Nat) (h : decodeOne bs = .ok (i, rest)) :
    rest.length < bs.length
    ∧ 2 ≤ bs.length - rest.length
    ∧ bs.length - rest.length ≤ 6
    ∧ decode bs = Except.map (fun l => i :: l) (decode rest) := by
  have hl := decodeOne_length h
  have hne : bs.isEmpty = false := by
    cases bs
    · simp [decodeOne] at h
    · rfl
  refine ⟨by omega, by omega, by omega, ?_⟩
  rw [decode.eq_def]
  rw [hne]
  rw [h]
  cases hrest : decode rest <;> simp [hrest, Except.map]

/-- C9 witness: decoding the two-byte input 89 D8 consumes exactly two
bytes and prepends the decoded instruction to the decode of the empty
remainder. -/
theorem c9_driver_bounded_progress_witness :
    ([] : List Nat).length < ([0x89, 0xD8] : List Nat).length
    ∧ 2 ≤ ([0x89, 0xD8] : List Nat).length - ([] : List Nat).length
    ∧ ([0x89, 0xD8] : List Nat).length - ([] : List Nat).length ≤ 6
    ∧ decode [0x89, 0xD8]
        = Except.map (fun l => Instruction.MovRegToReg .AX .BX :: l)
            (decode []) :=
  c9_driver_bounded_progress [0x89, 0xD8] (.MovRegToReg .AX .BX) [] rfl

/-- C10: evaluation of the pipeline at inputs breaking the round-trip
oracle.  The bytes 88 41 FF render as `mov [bx + di + 255], al`, whose
displacement 255 exceeds the signed range of a one-byte mode-01
displacement, so no assembler can re-encode that text back to the three
original bytes; and the two distinct inputs 8B C3 and 89 D8 render to the
same text, so a single assembler output cannot reproduce both. -/
theorem c10_roundtrip_breaks :
    decode [0x88, 0x41, 0xFF] = .ok [.MovRegToMem .BxPlusDi (some 255) .AL]
    ∧ output [.MovRegToMem .BxPlusDi (some 255) .AL]
        = "bits 16\nmov [bx + di + 255], al\n"
    ∧ decode [0x8B, 0xC3] = .ok [.MovRegToReg .AX .BX]
    ∧ decode [0x89, 0xD8] = .ok [.MovRegToReg .AX .BX]
    ∧ output [.MovRegToReg .AX .BX] = "bits 16\nmov ax, bx\n"
    ∧ ([0x8B, 0xC3] : List Nat) ≠ [0x89, 0xD8] := by
  refine ⟨?_, rfl, ?_, ?_, rfl, by decide⟩
  · rw [decode.eq_def]
    rw [show decodeOne [0x88, 0x41, 0xFF]
      = .ok (.MovRegToMem .BxPlusDi (some 255) .AL, []) from rfl]
    simp [decode.eq_def]
  · rw [decode.eq_def]
    rw [show decodeOne [0x8B, 0xC3]
      = .ok (.MovRegToReg .AX .BX, []) from rfl]
    simp [decode.eq_def]
  · rw [decode.eq_def]
    rw [show decodeOne [0x89, 0xD8]
      = .ok (.MovRegToReg .AX .BX, []) from rfl]
    simp [decode.eq_def]

/-- C3 counterexample: bytes C7 C0 00 01 are an immediate→mem family
instruction with mode=11 (register destination AX) and immediate 256, yet
the decoder produces a plain immediate→reg instruction and the renderer
emits `mov ax, 256` with no `word ` size annotation. -/
theorem c3_counterexample_mode11_plain :
    decodeOne [0xC7, 0xC0, 0x00, 0x01]
      = .ok (.MovImmediateToReg .AX 256, [])
    ∧ (Instruction.MovImmediateToReg .AX 256).toStr = "mov ax, 256"
    ∧ (Instruction.MovImmediateToReg .AX 256).toStr ≠ "mov ax, word 256" := by
  refine ⟨rfl, rfl, by decide⟩

/-- C3 amended: in the immediate→mem family the size annotation is
attached only when the destination really is memory — the byte/word
choice follows the 255 threshold — while the mode=11 case produces an
immediate→reg instruction, which renders (like the whole immediate→reg
family) as a plain decimal with no byte/word annotation. -/
theorem c3_size_annotation (b1 b2 : Nat) (bs rest : List Nat)
    (i : Instruction)
    (hfam : b1 &&& 0b11111110 = 0b11000110)
    (hmode : b2 >>> 6 = 3)
    (hdec : decodeOne (b1 :: b2 :: bs) = .ok (i, rest)) :
    (∃ r v, i = .MovImmediateToReg r v)
    ∧ (∀ (r : Register) (v : Nat),
        (Instruction.MovImmediateToReg r v).toStr
          = "mov " ++ r.toStr ++ ", " ++ toString v)
    ∧ (∀ v : Nat, v ≤ 255 → dataWithSize v = "byte " ++ toString v)
    ∧ (∀ v : Nat, v > 255 → dataWithSize v = "word " ++ toString v)
    ∧ (∀ (f : EffectiveAddressFormula) (dsp : Option Nat) (v : Nat),
        (Instruction.MovImmediateToMem f dsp v).toStr
          = "mov [" ++ f.toStr ++ dispSuffix dsp ++ "], " ++ dataWithSize v)
    ∧ (∀ (a v : Nat),
        (Instruction.MovImmediateMemDirect a v).toStr
          = "mov [" ++ toString a ++ "], " ++ dataWithSize v) := by
  refine ⟨?_, fun r v => rfl, fun v hv => ?_, fun v hv => ?_,
    fun f dsp v => rfl, fun a v => rfl⟩
  · simp only [decodeOne, parse_immToMemFamily hfam] at hdec
    unfold decodeImmToMem at hdec
    repeat' split at hdec
    all_goals try (simp only [Except.ok.injEq, Prod.mk.injEq] at hdec
                   obtain ⟨hi, hrest⟩ := hdec
                   subst hi)
    all_goals first
      | (exact ⟨_, _, rfl⟩)
      | simp_all
  · unfold dataWithSize
    rw [if_neg (by omega)]
  · unfold dataWithSize
    rw [if_pos hv]

/-- C3 witness: the amended statement applied at the concrete input
C7 C0 00 01, whose decode yields the immediate→reg instruction
`mov ax, 256`. -/
theorem c3_size_annotation_witness :
    (∃ r v, (Instruction.MovImmediateToReg .AX 256)
      = .MovImmediateToReg r v)
    ∧ dataWithSize 200 = "byte " ++ toString 200
    ∧ dataWithSize 300 = "word " ++ toString 300 := by
  have h := c3_size_annotation 0xC7 0xC0 [0x00, 0x01] []
    (.MovImmediateToReg .AX 256) rfl rfl rfl
  exact ⟨h.1, h.2.2.1 200 (by omega), h.2.2.2.1 300 (by omega)⟩

/-- C4: a ModR&M byte with mode=00 and r/m=110 triggers the direct-address
special case in both ModR&M families: the next two bytes are read as a
little-endian 16-bit address and a direct-memory operand is produced
instead of the BP formula; in particular 88 06 34 12 decodes to a direct
store at address 0x1234. -/
theorem c4_direct_address_override (b1 b2 lo hi : Nat) (bs : List Nat)
    (hmode : b2 >>> 6 = 0) (hrm : b2 &&& 0b111 = 0b110) :
    (b1 &&& 0b11111100 = 0b10001000 →
      ∃ r, Register.from_repr (((b1 &&& 1) <<< 3) ||| ((b2 >>> 3) &&& 0b111))
            = some r
        ∧ decodeOne (b1 :: b2 :: lo :: hi :: bs)
            = .ok ((if (b1 >>> 1) &&& 1 > 0 then
                      .MovMemDirectToReg r ((hi <<< 8) ||| lo)
                    else
                      .MovRegToMemDirect ((hi <<< 8) ||| lo) r), bs))
    ∧ (b1 &&& 0b11111110 = 0b11000110 →
      ∀ data rest, getData (b1 &&& 1) bs = .ok (data, rest) →
        decodeOne (b1 :: b2 :: lo :: hi :: bs)
          = .ok (.MovImmediateMemDirect ((hi <<< 8) ||| lo) data, rest))
    ∧ decode [0x88, 0x06, 0x34, 0x12]
        = .ok [.MovRegToMemDirect 0x1234 .AL] := by
  refine ⟨?_, ?_, ?_⟩
  · intro hfam
    obtain ⟨r, hr⟩ := reg_from_repr_shift (x := b1 &&& 1)
      (y := (b2 >>> 3) &&& 0b111) Nat.and_le_right Nat.and_le_right
    refine ⟨r, hr, ?_⟩
    simp only [decodeOne, parse_regFamily hfam]
    unfold decodeRegToRegOrMem
    rw [hr, hmode]
    simp only [hrm]
    rw [if_pos trivial]
    split <;> simp_all
  · intro hfam data rest hdata
    simp only [decodeOne, parse_immToMemFamily hfam]
    unfold decodeImmToMem
    rw [hmode]
    simp only [hrm]
    rw [if_pos trivial, hdata]
  · rw [decode.eq_def]
    rw [show decodeOne [0x88, 0x06, 0x34, 0x12]
      = .ok (.MovRegToMemDirect 0x1234 .AL, []) from rfl]
    simp [decode.eq_def]

/-- C4 witness: the concrete decode of 88 06 34 12, through the theorem. -/
theorem c4_direct_address_override_witness :
    decode [0x88, 0x06, 0x34, 0x12] = .ok [.MovRegToMemDirect 0x1234 .AL] :=
  (c4_direct_address_override 0x88 0x06 0x34 0x12 [] rfl rfl).2.2

/-- C5: in the reg↔reg/mem family the D bit drives operand direction: the
register selected by the reg field of the ModR&M byte is the destination
when D=1 and the source when D=0 (the ModR&M-derived operand taking the
other role); in particular 89 D8 decodes and renders as `mov ax, bx`. -/
theorem c5_d_bit_direction (b1 b2 : Nat) (bs rest : List Nat)
    (i : Instruction)
    (hfam : b1 &&& 0b11111100 = 0b10001000)
    (hdec : decodeOne (b1 :: b2 :: bs) = .ok (i, rest)) :
    (∃ r1, Register.from_repr (((b1 &&& 1) <<< 3) ||| ((b2 >>> 3) &&& 0b111))
        = some r1
      ∧ (0 < (b1 >>> 1) &&& 1 →
          (∃ src, i = .MovRegToReg r1 src)
          ∨ (∃ f dsp, i = .MovMemToReg r1 f dsp)
          ∨ (∃ a, i = .MovMemDirectToReg r1 a))
      ∧ ((b1 >>> 1) &&& 1 = 0 →
          (∃ dst, i = .MovRegToReg dst r1)
          ∨ (∃ f dsp, i = .MovRegToMem f dsp r1)
          ∨ (∃ a, i = .MovRegToMemDirect a r1)))
    ∧ decode [0x89, 0xD8] = .ok [.MovRegToReg .AX .BX]
    ∧ (Instruction.MovRegToReg .AX .BX).toStr = "mov ax, bx" := by
  refine ⟨?_, ?_, rfl⟩
  · simp only [decodeOne, parse_regFamily hfam] at hdec
    unfold decodeRegToRegOrMem at hdec
    repeat' split at hdec
    all_goals try (simp only [Except.ok.injEq, Prod.mk.injEq] at hdec
                   obtain ⟨hi, hrest⟩ := hdec
                   subst hi)
    all_goals first
      | (exact ⟨_, by assumption,
          fun _ => Or.inr (Or.inr ⟨_, rfl⟩),
          fun h0 => absurd h0 (by omega)⟩)
      | (exact ⟨_, by assumption,
          fun hd => absurd hd (by omega),
          fun _ => Or.inr (Or.inr ⟨_, rfl⟩)⟩)
      | (exact ⟨_, by assumption,
          fun _ => Or.inr (Or.inl ⟨_, _, rfl⟩),
          fun h0 => absurd h0 (by omega)⟩)
      | (exact ⟨_, by assumption,
          fun hd => absurd hd (by omega),
          fun _ => Or.inr (Or.inl ⟨_, _, rfl⟩)⟩)
      | (refine ⟨_, by assumption, fun hd => ?_, fun h0 => ?_⟩
         · have h2 : (b1 >>> 1) &&& 1 ≤ 1 := Nat.and_le_right
           rw [if_pos (show (b1 >>> 1) &&& 1 = 1 from by omega),
               if_pos (show (b1 >>> 1) &&& 1 = 1 from by omega)]
           exact Or.inl ⟨_, rfl⟩
         · rw [if_neg (show ¬ (b1 >>> 1) &&& 1 = 1 from by omega),
               if_neg (show ¬ (b1 >>> 1) &&& 1 = 1 from by omega)]
           exact Or.inl ⟨_, rfl⟩)
      | simp_all
  · rw [decode.eq_def]
    rw [show decodeOne [0x89, 0xD8]
      = .ok (.MovRegToReg .AX .BX, []) from rfl]
    simp [decode.eq_def]

/-- C5 witness: the direction statement applied to the concrete decode of
89 D8, whose D bit is 0, so the reg field (BX) is the source. -/
theorem c5_d_bit_direction_witness :
    ∃ r1, Register.from_repr (((0x89 &&& 1) <<< 3) ||| ((0xD8 >>> 3) &&& 0b111))
        = some r1
      ∧ (0 < (0x89 >>> 1) &&& 1 →
          (∃ src, Instruction.MovRegToReg .AX .BX = .MovRegToReg r1 src)
          ∨ (∃ f dsp, Instruction.MovRegToReg .AX .BX = .MovMemToReg r1 f dsp)
          ∨ (∃ a, Instruction.MovRegToReg .AX .BX = .MovMemDirectToReg r1 a))
      ∧ ((0x89 >>> 1) &&& 1 = 0 →
          (∃ dst, Instruction.MovRegToReg .AX .BX = .MovRegToReg dst r1)
          ∨ (∃ f dsp, Instruction.MovRegToReg .AX .BX = .MovRegToMem f dsp r1)
          ∨ (∃ a, Instruction.MovRegToReg .AX .BX = .MovRegToMemDirect a r1)) :=
  (c5_d_bit_direction 0x89 0xD8 [] [] (.MovRegToReg .AX .BX) rfl rfl).1
